import Mathlib

/-
  Verification of the media-story service (fastapi-imgStory).

  The definitions below are a shallow embedding of the repository's code:
  the TypeScript caption service (generateStoryFromImage and friends, with
  the fenced-JSON normalization pipeline and the zod response schema), the
  client-side file validator / selection state (validateFiles,
  updateSelectedFiles, removeFile) and the client-side cost display.
  Strings are List Char where character-level reasoning is needed.
-/

/-! ## Characters and whitespace classes

  The code uses two distinct whitespace notions: the JavaScript regex
  class from backslash-s (used by the fence-stripping regexes) and the
  JSON grammar whitespace accepted by JSON.parse. -/

/-- Whitespace class matched by the JavaScript regex escape backslash-s. -/
def jsRegexWs (c : Char) : Bool :=
  let n := c.toNat
  n == 0x9 || n == 0xa || n == 0xb || n == 0xc || n == 0xd || n == 0x20 ||
  n == 0xa0 || n == 0x1680 || (0x2000 ≤ n && n ≤ 0x200a) ||
  n == 0x2028 || n == 0x2029 || n == 0x202f || n == 0x205f ||
  n == 0x3000 || n == 0xfeff

/-- Drop a maximal run of JavaScript-regex whitespace, as a greedy
  backslash-s-star does at the current position. -/
def dropJsWs (cs : List Char) : List Char :=
  cs.dropWhile jsRegexWs

/-- Whitespace accepted between tokens by JSON.parse (space, tab, LF, CR). -/
def jsonWs (c : Char) : Bool :=
  let n := c.toNat
  n == 0x20 || n == 0x9 || n == 0xa || n == 0xd

/-- Skip JSON token whitespace. -/
def skipJsonWs (cs : List Char) : List Char :=
  cs.dropWhile jsonWs

/-! ## JSON values and JSON.parse

  A model of the JavaScript value produced by JSON.parse.  Numeric
  lexemes are kept verbatim: the embedded code never inspects a numeric
  value, only the runtime type tag (the zod schema checks whether a field
  is a string). -/

/-- Result values of JSON.parse. Object fields are kept in source order;
  with duplicate keys the later binding wins on lookup, as in JavaScript. -/
inductive Json where
  | null
  | bool (b : Bool)
  | num (raw : String)
  | str (s : String)
  | arr (elems : List Json)
  | obj (fields : List (String × Json))

/-- Field lookup on a parsed object: the last binding of the key wins,
  matching JavaScript object construction from duplicate JSON keys. -/
def getJsonField (fields : List (String × Json)) (key : String) : Option Json :=
  match fields.reverse.find? (fun kv => kv.1 == key) with
  | some kv => some kv.2
  | none => none

/-- Unescaped translation of a single-character JSON string escape. -/
def jsonEscChar : Char → Option Char
  | '"' => some '"'
  | '\\' => some '\\'
  | '/' => some '/'
  | 'b' => some (Char.ofNat 8)
  | 'f' => some (Char.ofNat 12)
  | 'n' => some (Char.ofNat 10)
  | 'r' => some (Char.ofNat 13)
  | 't' => some (Char.ofNat 9)
  | _ => none

/-- Value of a hexadecimal digit, if any. -/
def hexDigitVal (c : Char) : Option Nat :=
  let n := c.toNat
  if 48 ≤ n && n ≤ 57 then some (n - 48)
  else if 97 ≤ n && n ≤ 102 then some (n - 87)
  else if 65 ≤ n && n ≤ 70 then some (n - 55)
  else none

/-- Body of a JSON string literal after the opening quote: returns the
  decoded characters and the input following the closing quote.
  Surrogate-pair recombination of adjacent backslash-u escapes is not
  modelled; no verified claim involves such escapes. -/
def parseJsonStrBody : Nat → List Char → Option (List Char × List Char)
  | 0, _ => none
  | fuel+1, cs =>
    match cs with
    | [] => none
    | '"' :: rest => some ([], rest)
    | '\\' :: esc =>
      match esc with
      | 'u' :: h1 :: h2 :: h3 :: h4 :: rest =>
        match hexDigitVal h1, hexDigitVal h2, hexDigitVal h3, hexDigitVal h4 with
        | some a, some b, some c, some d =>
          match parseJsonStrBody fuel rest with
          | some (s, r) => some (Char.ofNat (((a * 16 + b) * 16 + c) * 16 + d) :: s, r)
          | none => none
        | _, _, _, _ => none
      | c :: rest =>
        match jsonEscChar c with
        | some ec =>
          match parseJsonStrBody fuel rest with
          | some (s, r) => some (ec :: s, r)
          | none => none
        | none => none
      | [] => none
    | c :: rest =>
      if c.toNat ≥ 0x20 then
        match parseJsonStrBody fuel rest with
        | some (s, r) => some (c :: s, r)
        | none => none
      else none

/-- The exponent part of a JSON number lexeme (or nothing). -/
def parseNumExp (lex : List Char) (cs : List Char) : Option (List Char × List Char) :=
  match cs with
  | c :: r =>
    if c == 'e' || c == 'E' then
      let sgn : List Char × List Char :=
        match r with
        | '+' :: r2 => (['+'], r2)
        | '-' :: r2 => (['-'], r2)
        | _ => ([], r)
      let ds := sgn.2.takeWhile Char.isDigit
      if ds.isEmpty then none
      else some (lex ++ c :: sgn.1 ++ ds, sgn.2.dropWhile Char.isDigit)
    else some (lex, cs)
  | [] => some (lex, cs)

/-- The fractional part of a JSON number lexeme (or nothing), then the
  exponent part. -/
def parseNumFrac (lex : List Char) (cs : List Char) : Option (List Char × List Char) :=
  match cs with
  | '.' :: r =>
    let ds := r.takeWhile Char.isDigit
    if ds.isEmpty then none
    else parseNumExp (lex ++ '.' :: ds) (r.dropWhile Char.isDigit)
  | _ => parseNumExp lex cs

/-- A complete JSON number lexeme starting at the current position. -/
def parseNumLex (cs : List Char) : Option (List Char × List Char) :=
  let sign : List Char × List Char :=
    match cs with
    | '-' :: r => (['-'], r)
    | _ => ([], cs)
  match sign.2 with
  | '0' :: r => parseNumFrac (sign.1 ++ ['0']) r
  | c :: _ =>
    if c.isDigit then
      parseNumFrac (sign.1 ++ sign.2.takeWhile Char.isDigit) (sign.2.dropWhile Char.isDigit)
    else none
  | [] => none

mutual

/-- One JSON value starting at the current (already whitespace-skipped)
  position, following the grammar JSON.parse accepts. -/
def parseVal : Nat → List Char → Option (Json × List Char)
  | 0, _ => none
  | fuel+1, cs =>
    match cs with
    | [] => none
    | '{' :: rest => parseObjFirst fuel (skipJsonWs rest)
    | '[' :: rest => parseArrFirst fuel (skipJsonWs rest)
    | '"' :: rest =>
      match parseJsonStrBody (rest.length + 1) rest with
      | some (s, r) => some (Json.str (String.mk s), r)
      | none => none
    | 't' :: rest =>
      if ("rue".toList).isPrefixOf rest then some (Json.bool true, rest.drop 3) else none
    | 'f' :: rest =>
      if ("alse".toList).isPrefixOf rest then some (Json.bool false, rest.drop 4) else none
    | 'n' :: rest =>
      if ("ull".toList).isPrefixOf rest then some (Json.null, rest.drop 3) else none
    | c :: _ =>
      if c == '-' || c.isDigit then
        match parseNumLex cs with
        | some (lex, r) => some (Json.num (String.mk lex), r)
        | none => none
      else none

/-- Object body right after the opening brace (whitespace skipped). -/
def parseObjFirst : Nat → List Char → Option (Json × List Char)
  | 0, _ => none
  | fuel+1, cs =>
    match cs with
    | '}' :: rest => some (Json.obj [], rest)
    | _ => parseObjMember fuel [] cs

/-- One key-value member, then either a comma and more members or the
  closing brace. -/
def parseObjMember : Nat → List (String × Json) → List Char → Option (Json × List Char)
  | 0, _, _ => none
  | fuel+1, acc, cs =>
    match cs with
    | '"' :: rest =>
      match parseJsonStrBody (rest.length + 1) rest with
      | some (k, r1) =>
        match skipJsonWs r1 with
        | ':' :: r2 =>
          match parseVal fuel (skipJsonWs r2) with
          | some (v, r3) =>
            match skipJsonWs r3 with
            | ',' :: r4 => parseObjMember fuel (acc ++ [(String.mk k, v)]) (skipJsonWs r4)
            | '}' :: r4 => some (Json.obj (acc ++ [(String.mk k, v)]), r4)
            | _ => none
          | none => none
        | _ => none
      | none => none
    | _ => none

/-- Array body right after the opening bracket (whitespace skipped). -/
def parseArrFirst : Nat → List Char → Option (Json × List Char)
  | 0, _ => none
  | fuel+1, cs =>
    match cs with
    | ']' :: rest => some (Json.arr [], rest)
    | _ => parseArrElem fuel [] cs

/-- One array element, then either a comma and more elements or the
  closing bracket. -/
def parseArrElem : Nat → List Json → List Char → Option (Json × List Char)
  | 0, _, _ => none
  | fuel+1, acc, cs =>
    match parseVal fuel cs with
    | some (v, r1) =>
      match skipJsonWs r1 with
      | ',' :: r2 => parseArrElem fuel (acc ++ [v]) (skipJsonWs r2)
      | ']' :: r2 => some (Json.arr (acc ++ [v]), r2)
      | _ => none
    | none => none

end

/-- JSON.parse on a whole string: one value surrounded by optional
  whitespace, nothing else.  The fuel bound is generous; claims about the
  parser either evaluate it on concrete input or assume it succeeded. -/
def parseJson (cs : List Char) : Option Json :=
  match parseVal (2 * cs.length + 2) (skipJsonWs cs) with
  | some (j, rest) => if (skipJsonWs rest).isEmpty then some j else none
  | none => none

/-! ## The fenced-code-block regex and the stripping replaces

  The caption service normalizes the model reply with
  content.match of the pattern: three backticks, an optional json tag,
  regex-whitespace, a captured brace-delimited block, regex-whitespace,
  three backticks; followed by three anchored replace calls.  The
  functions below implement exactly the leftmost-match, greedy semantics
  of those JavaScript regex operations for these fixed patterns. -/

/-- The three-backtick fence marker. -/
def fenceChars : List Char := "```".toList

/-- Largest prefix length k of cs such that cs.take k ends in a closing
  brace and the remainder is regex-whitespace followed by a fence: this is
  where the greedy dot-star inside the captured group stops. -/
def findFencedGroupAux (cs : List Char) : Nat → Option Nat
  | 0 => none
  | k+1 =>
    if (cs.take (k+1)).getLast? == some '}' &&
       fenceChars.isPrefixOf (dropJsWs (cs.drop (k+1)))
    then some (k+1)
    else findFencedGroupAux cs k

/-- The captured group at a position whose head is an opening brace. -/
def findFencedGroup (cs : List Char) : Option (List Char) :=
  match findFencedGroupAux cs cs.length with
  | some k => some (cs.take k)
  | none => none

/-- Attempt of the fenced-block pattern anchored at the current position:
  a fence, an optional json tag, greedy regex-whitespace, then the
  captured group. -/
def matchFenceAt (cs : List Char) : Option (List Char) :=
  if fenceChars.isPrefixOf cs then
    let r1 := cs.drop 3
    let r2 := if ("json".toList).isPrefixOf r1 then r1.drop 4 else r1
    let r3 := dropJsWs r2
    match r3 with
    | '{' :: _ => findFencedGroup r3
    | _ => none
  else none

/-- content.match with the fenced-block pattern: the leftmost position
  where the pattern matches, returning the captured group. -/
def findFencedJson : List Char → Option (List Char)
  | [] => none
  | c :: rest =>
    match matchFenceAt (c :: rest) with
    | some g => some g
    | none => findFencedJson rest

/-- replace of an anchored leading fence-plus-json-tag followed by greedy
  regex-whitespace, with the empty string. -/
def stripLeadFenceJson (cs : List Char) : List Char :=
  if ("```json".toList).isPrefixOf cs then dropJsWs (cs.drop 7) else cs

/-- replace of an anchored leading fence followed by greedy
  regex-whitespace, with the empty string. -/
def stripLeadFence (cs : List Char) : List Char :=
  if fenceChars.isPrefixOf cs then dropJsWs (cs.drop 3) else cs

/-- replace of trailing regex-whitespace followed by an end-anchored
  fence, with the empty string: the leftmost match removes the maximal
  whitespace run before a final fence. -/
def stripTrailFence (cs : List Char) : List Char :=
  let r := cs.reverse
  if fenceChars.isPrefixOf r then (dropJsWs (r.drop 3)).reverse else cs

/-- The extract-then-strip normalization the caption service applies to
  the raw model reply before JSON.parse. -/
def cleanContent (cs : List Char) : List Char :=
  let jsonContent :=
    match findFencedJson cs with
    | some g => g
    | none => cs
  stripTrailFence (stripLeadFence (stripLeadFenceJson jsonContent))

/-! ## The response schema and the caption result -/

/-- The canonical caption result: storyResponseSchema infers an object
  with a required english string and an optional thai string. -/
structure StoryResponse where
  english : String
  thai : Option String
deriving DecidableEq, Repr

/-- storyResponseSchema.parse: accepts only an object whose english field
  is a string and whose thai field is absent or a string; any other value
  raises, modelled as none. -/
def storyResponseParse (j : Json) : Option StoryResponse :=
  match j with
  | Json.obj fields =>
    match getJsonField fields ("english") with
    | some (Json.str e) =>
      match getJsonField fields ("thai") with
      | none => some { english := e, thai := none }
      | some (Json.str t) => some { english := e, thai := some t }
      | some _ => none
    | _ => none
  | _ => none

/-- The inner try block of every generation function: extract a fenced
  block if present, strip residual fences, JSON.parse, validate with the
  schema.  none covers both a JSON.parse throw and a schema reject. -/
def parseStoryContent (cs : List Char) : Option StoryResponse :=
  match parseJson (cleanContent cs) with
  | some j => storyResponseParse j
  | none => none

/-! ## The caption service generation functions

  The OpenAI round trip is abstracted by a ModelOutcome: either the
  invocation throws (network, auth, rate-limit, or the file read inside
  the video-frames try block) or it returns a choices-message-content
  field, which may be absent or any string.  Exception flow is made
  explicit with Except plus a tryCatchE combinator mirroring the
  try/catch blocks of the source. -/

/-- Outcome of the single model invocation inside the try block. -/
inductive ModelOutcome where
  | failure (err : String)
  | reply (content : Option String)

/-- A try/catch block: run the body; on a thrown error run the handler. -/
def tryCatchE {ε α : Type} (body : Except ε α) (handler : ε → Except ε α) : Except ε α :=
  match body with
  | Except.ok a => Except.ok a
  | Except.error e => handler e

/-- Canned single-image story returned in fallback mode. -/
def imageFallbackStory : StoryResponse :=
  { english := "A captivating image that tells a unique visual story. The composition draws the viewer in with its distinctive elements and emotional resonance."
  , thai := some "ภาพที่น่าหลงใหลซึ่งเล่าเรื่องราวที่เป็นเอกลักษณ์ องค์ประกอบของภาพดึงดูดผู้ชมด้วยความโดดเด่นและความสะเทือนใจ" }

/-- Placeholder substituted when parsing the single-image reply fails. -/
def imageParseFailStory : StoryResponse :=
  { english := "We couldn\x27t properly analyze this image."
  , thai := some "เราไม่สามารถวิเคราะห์ภาพนี้ได้อย่างถูกต้อง" }

/-- Placeholder substituted when the single-image model invocation throws. -/
def imageInvocationFailStory : StoryResponse :=
  { english := "We couldn\x27t analyze this image. Our image analysis service is currently unavailable."
  , thai := some "เราไม่สามารถวิเคราะห์ภาพนี้ได้ บริการวิเคราะห์ภาพของเราไม่พร้อมใช้งานในขณะนี้" }

/-- Canned multi-image story returned in fallback mode. -/
def multiImageFallbackStory : StoryResponse :=
  { english := "A compelling visual narrative unfolds across these images. Each frame contributes to a unified story, creating an emotional journey through connected visual elements."
  , thai := some "เรื่องราวที่น่าสนใจปรากฏขึ้นในภาพเหล่านี้ แต่ละภาพมีส่วนร่วมในการสร้างเรื่องราวที่เป็นหนึ่งเดียว สร้างการเดินทางทางอารมณ์ผ่านองค์ประกอบภาพที่เชื่อมโยงกัน" }

/-- Placeholder substituted when parsing the multi-image reply fails. -/
def multiImageParseFailStory : StoryResponse :=
  { english := "We couldn\x27t properly analyze these images together."
  , thai := some "เราไม่สามารถวิเคราะห์ภาพเหล่านี้ร่วมกันได้อย่างถูกต้อง" }

/-- Placeholder substituted when the multi-image model invocation throws. -/
def multiImageInvocationFailStory : StoryResponse :=
  { english := "We couldn\x27t analyze these images together. Please try again with clearer images."
  , thai := some "เราไม่สามารถวิเคราะห์ภาพเหล่านี้ร่วมกันได้ โปรดลองอีกครั้งด้วยภาพที่ชัดเจนกว่านี้" }

/-- Canned video-frames story returned in fallback mode. -/
def videoFramesFallbackStory : StoryResponse :=
  { english := "A dynamic video sequence that captures motion and time. The visual elements tell a story of movement and action that unfolds through each frame."
  , thai := some "ลำดับวิดีโอที่มีชีวิตชีวาที่จับการเคลื่อนไหวและเวลา องค์ประกอบภาพเล่าเรื่องราวของการเคลื่อนไหวและการกระทำที่คลี่คลายไปในแต่ละเฟรม" }

/-- Placeholder substituted when parsing the video-frames reply fails. -/
def videoFramesParseFailStory : StoryResponse :=
  { english := "We couldn\x27t properly analyze this video."
  , thai := some "เราไม่สามารถวิเคราะห์วิดีโอนี้ได้อย่างถูกต้อง" }

/-- Placeholder substituted when the video-frames model invocation throws. -/
def videoFramesInvocationFailStory : StoryResponse :=
  { english := "We couldn\x27t analyze this video completely. You can watch it to experience the full content."
  , thai := some "เราไม่สามารถวิเคราะห์วิดีโอนี้ได้อย่างสมบูรณ์ คุณสามารถดูวิดีโอเพื่อสัมผัสเนื้อหาทั้งหมด" }

/-- Placeholder substituted when parsing the video-metadata reply fails. -/
def videoParseFailStory : StoryResponse :=
  { english := "We\x27ve processed your video. Watch it to experience the full story."
  , thai := some "เราได้ประมวลผลวิดีโอของคุณแล้ว ดูวิดีโอเพื่อสัมผัสเรื่องราวทั้งหมด" }

/-- Placeholder substituted when the video-metadata model invocation
  throws; its text coincides with the parse-failure placeholder of the
  same function in the source. -/
def videoInvocationFailStory : StoryResponse :=
  { english := "We\x27ve processed your video. Watch it to experience the full story."
  , thai := some "เราได้ประมวลผลวิดีโอของคุณแล้ว ดูวิดีโอเพื่อสัมผัสเรื่องราวทั้งหมด" }

/-- Shared shape of all four generation functions after fallback-mode
  dispatch: throw on a failed invocation or a falsy content field, parse
  the reply inside the inner try, and absorb any thrown error into the
  invocation-failure placeholder. -/
def runGeneration (outcome : ModelOutcome) (parseFail invocationFail : StoryResponse) :
    Except String StoryResponse :=
  tryCatchE
    (match outcome with
      | ModelOutcome.failure e => Except.error e
      | ModelOutcome.reply none => Except.error ("No content returned from OpenAI")
      | ModelOutcome.reply (some content) =>
        if content = "" then Except.error ("No content returned from OpenAI")
        else
          match parseStoryContent content.toList with
          | some r => Except.ok r
          | none => Except.ok parseFail)
    (fun _ => Except.ok invocationFail)

/-- generateStoryFromImage: fallback mode short-circuits to the canned
  story; otherwise one invocation wrapped in try/catch. -/
def generateStoryFromImage (usingFallbackMode : Bool) (outcome : ModelOutcome) :
    Except String StoryResponse :=
  if usingFallbackMode then Except.ok imageFallbackStory
  else runGeneration outcome imageParseFailStory imageInvocationFailStory

/-- generateStoryFromMultipleImages.  The base64 image inputs feed the
  request only, so they do not affect the abstracted outcome. -/
def generateStoryFromMultipleImages (usingFallbackMode : Bool)
    (base64Images : List String) (outcome : ModelOutcome) :
    Except String StoryResponse :=
  if usingFallbackMode then Except.ok multiImageFallbackStory
  else
    let _ := base64Images
    runGeneration outcome multiImageParseFailStory multiImageInvocationFailStory

/-! ## Video-frame selection and the video strategies -/

/-- Frame selection in generateStoryFromVideoFrames: at most ten frames;
  with more than ten, ten evenly spaced indices i * floor(n / 10), each
  clamped to n - 1. -/
def selectFrames (framePaths : List String) : List String :=
  if framePaths.length ≤ 10 then framePaths
  else
    (List.range 10).map
      (fun i => framePaths.getD (min (i * (framePaths.length / 10)) (framePaths.length - 1)) (""))

/-- One entry of the user-content array sent to the model. -/
inductive ContentPart where
  | text (s : String)
  | imageUrl (url : String)

/-- The user-content array built by generateStoryFromVideoFrames: a
  task instruction (mentioning the transcript when it is non-empty, which
  is JavaScript truthiness on a string), then one inline data URL per
  selected frame.  read stands for reading a frame file and base64
  encoding it. -/
def buildVideoFramesUserContent (read : String → String)
    (framePaths : List String) (transcript : String) : List ContentPart :=
  let prompt :=
    if transcript ≠ "" then
      "Create an engaging caption for this video based on these frames and transcript: \"" ++
        transcript ++ "\"."
    else
      "Create an engaging caption for this video based on these frames."
  ContentPart.text prompt ::
    (selectFrames framePaths).map
      (fun p => ContentPart.imageUrl ("data:image/jpeg;base64," ++ read p))

/-- Number of inline image payloads in a user-content array. -/
def countImageParts (parts : List ContentPart) : Nat :=
  (parts.filter
    (fun p =>
      match p with
      | ContentPart.imageUrl _ => true
      | _ => false)).length

/-- generateStoryFromVideoFrames: fallback mode short-circuits; otherwise
  the selected frames are read and sent, and the reply is normalized like
  the image strategies. -/
def generateStoryFromVideoFrames (usingFallbackMode : Bool) (read : String → String)
    (framePaths : List String) (transcript : String) (outcome : ModelOutcome) :
    Except String StoryResponse :=
  if usingFallbackMode then Except.ok videoFramesFallbackStory
  else
    let _ := buildVideoFramesUserContent read framePaths transcript
    runGeneration outcome videoFramesParseFailStory videoFramesInvocationFailStory

/-- Metadata of an uploaded video handed to generateStoryFromVideo. -/
structure VideoDetails where
  filename : String
  duration : Option String
  mimetype : String
  size : Nat
  thumbnailBase64 : Option String

/-- JavaScript x-or-default on an optional string: an absent or empty
  string is falsy. -/
def orDefaultStr (o : Option String) (dflt : String) : String :=
  match o with
  | some s => if s = "" then dflt else s
  | none => dflt

/-- mimetype.split on a slash, index one; an out-of-range index
  interpolates as the text undefined in a template literal. -/
def mimeSubtype (m : String) : String :=
  match m.splitOn ("/") with
  | _ :: x :: _ => x
  | _ => "undefined"

/-- Canned video-metadata story returned in fallback mode, built from
  the duration and mime subtype. -/
def videoMetaFallbackStory (videoDetails : VideoDetails) : StoryResponse :=
  let duration := orDefaultStr videoDetails.duration ("a few moments")
  { english := "A " ++ duration ++ " video that captures moments in time. This " ++
      mimeSubtype videoDetails.mimetype ++
      " format clip invites you to watch and experience the content directly."
  , thai := some ("วิดีโอความยาว " ++ duration ++ " ที่จับภาพช่วงเวลาต่างๆ คลิปรูปแบบ " ++
      mimeSubtype videoDetails.mimetype ++
      " นี้เชิญชวนให้คุณรับชมและสัมผัสประสบการณ์เนื้อหาโดยตรง") }

/-- generateStoryFromVideo: fallback mode returns the metadata-derived
  canned story; otherwise one invocation on the metadata prompt wrapped in
  try/catch like the other strategies. -/
def generateStoryFromVideo (usingFallbackMode : Bool) (videoDetails : VideoDetails)
    (outcome : ModelOutcome) : Except String StoryResponse :=
  if usingFallbackMode then Except.ok (videoMetaFallbackStory videoDetails)
  else runGeneration outcome videoParseFailStory videoInvocationFailStory

/-! ## Client-side file validation and selection state

  The SelectedFileSet is the DataTransfer list managed by the upload
  page: validateFiles checks a candidate batch against the current
  selection, updateSelectedFiles merges an accepted batch (clearing first
  when the batch is a single video), removeFile drops entries by file
  name, and the retry button clears the selection. -/

/-- The client-visible identity of a selected file. -/
structure FileMeta where
  name : String
  size : Nat
  type : String
deriving DecidableEq, Repr

/-- Allowed image media types. -/
def allowedImageTypes : List String := ["image/jpeg", "image/jpg", "image/png"]

/-- Allowed video media types. -/
def allowedVideoTypes : List String := ["video/mp4"]

/-- Ten mebibytes, the per-image size cap. -/
def maxImageSize : Nat := 10 * 1024 * 1024

/-- Fifty mebibytes, the video size cap. -/
def maxVideoSize : Nat := 50 * 1024 * 1024

/-- Whether some file in the list has an allowed video type. -/
def hasVideoIn (files : List FileMeta) : Bool :=
  files.any (fun f => allowedVideoTypes.contains f.type)

/-- Comma-and-space join of file names, as in the error templates. -/
def joinNames (files : List FileMeta) : String :=
  String.intercalate (", ") (files.map (fun f => f.name))

/-- Rejection message when a batch would mix videos and images with the
  existing selection. -/
def cannotMixMsg : String :=
  "Cannot mix videos and images. Please clear your selection first."

/-- Rejection message when one batch holds a video together with other
  files. -/
def singleVideoOrImagesMsg : String :=
  "Please upload either a single video or multiple images, not both."

/-- Rejection message for an oversized video. -/
def videoTooLargeMsg (name : String) : String :=
  "Video file \x27" ++ name ++ "\x27 is too large. Maximum size is 50MB."

/-- Rejection message for files outside the allowed image types. -/
def unsupportedTypeMsg (files : List FileMeta) : String :=
  "Unsupported file type(s): " ++ joinNames files ++ ". Only JPG and PNG images are supported."

/-- Rejection message for oversized images. -/
def imagesTooLargeMsg (files : List FileMeta) : String :=
  "File(s) too large: " ++ joinNames files ++ ". Maximum size per image is 10MB."

/-- Verdict of validateFiles: accept, or reject with the displayed
  reason.  An empty candidate batch returns false without displaying a
  message, modelled as a reject with no reason. -/
inductive Verdict where
  | accept
  | reject (reason : Option String)
deriving DecidableEq, Repr

/-- validateFiles from the upload page: the decision chain over the
  candidate batch and the current selection, in source order. -/
def validateFiles (files : List FileMeta) (selected : List FileMeta) : Verdict :=
  if files.isEmpty then Verdict.reject none
  else if hasVideoIn files && !selected.isEmpty && !hasVideoIn selected then
    Verdict.reject (some cannotMixMsg)
  else if hasVideoIn selected && !hasVideoIn files && !selected.isEmpty then
    Verdict.reject (some cannotMixMsg)
  else if hasVideoIn files && decide (files.length > 1) then
    Verdict.reject (some singleVideoOrImagesMsg)
  else if hasVideoIn files then
    match files.find? (fun f => allowedVideoTypes.contains f.type) with
    | some videoFile =>
      if videoFile.size > maxVideoSize then
        Verdict.reject (some (videoTooLargeMsg videoFile.name))
      else Verdict.accept
    | none => Verdict.accept
  else if !(files.filter (fun f => !allowedImageTypes.contains f.type)).isEmpty then
    Verdict.reject
      (some (unsupportedTypeMsg (files.filter (fun f => !allowedImageTypes.contains f.type))))
  else if !(files.filter (fun f => decide (f.size > maxImageSize))).isEmpty then
    Verdict.reject
      (some (imagesTooLargeMsg (files.filter (fun f => decide (f.size > maxImageSize)))))
  else Verdict.accept

/-- Add one file to the selection unless an entry with the same name,
  size and type is already present (the duplicate heuristic). -/
def addUnlessDuplicate (acc : List FileMeta) (f : FileMeta) : List FileMeta :=
  if acc.any (fun g => g.name == f.name && g.size == f.size && g.type == f.type) then acc
  else acc ++ [f]

/-- The base selection updateSelectedFiles starts from: a batch that is
  exactly one video-typed file first clears the selection. -/
def updateBase (selected : List FileMeta) (newFiles : List FileMeta) : List FileMeta :=
  match newFiles with
  | [f] => if (("video/".toList).isPrefixOf f.type.toList) then [] else selected
  | _ => selected

/-- updateSelectedFiles: after the video clear, each batch file is
  appended unless it duplicates an entry already present (including ones
  added earlier in the loop). -/
def updateSelectedFiles (selected : List FileMeta) (newFiles : List FileMeta) : List FileMeta :=
  newFiles.foldl addUnlessDuplicate (updateBase selected newFiles)

/-- removeFile: rebuild the selection keeping every file whose name
  differs from the given one (both branches of the source do this). -/
def removeFile (fileName : String) (selected : List FileMeta) : List FileMeta :=
  selected.filter (fun f => f.name != fileName)

/-- The add path of the change and drop handlers: merge the batch only
  when validateFiles accepts it. -/
def applyAdd (selected : List FileMeta) (batch : List FileMeta) : List FileMeta :=
  match validateFiles batch selected with
  | Verdict.accept => updateSelectedFiles selected batch
  | Verdict.reject _ => selected

/-- Selection states reachable from the empty selection through the
  upload page operations: batch add, individual remove, retry clear. -/
inductive Reachable : List FileMeta → Prop where
  | empty : Reachable []
  | add (s batch : List FileMeta) :
      Reachable s → Reachable (applyAdd s batch)
  | remove (s : List FileMeta) (fileName : String) :
      Reachable s → Reachable (removeFile fileName s)
  | clear (s : List FileMeta) : Reachable s → Reachable []

/-- The homogeneity invariant: every entry has an allowed image type, or
  the selection is exactly one allowed video. -/
def selectionHomogeneous (s : List FileMeta) : Prop :=
  (∀ f ∈ s, allowedImageTypes.contains f.type = true) ∨
  (∃ f, s = [f] ∧ allowedVideoTypes.contains f.type = true)

/-! ## Client-side cost display -/

/-- Input token price per million, for gpt-4.1-mini. -/
def INPUT_COST_USD_PER_MILLION : ℚ := 0.40

/-- Output token price per million. -/
def OUTPUT_COST_USD_PER_MILLION : ℚ := 1.60

/-- Displayed conversion rate. -/
def USD_TO_THB_RATE : ℚ := 35.0

/-- Dollar cost computed by the submit handler from the token counts. -/
def totalCostUsd (inputTokens outputTokens : ℕ) : ℚ :=
  (inputTokens : ℚ) / 1000000 * INPUT_COST_USD_PER_MILLION +
    (outputTokens : ℚ) / 1000000 * OUTPUT_COST_USD_PER_MILLION

/-- Baht cost computed by the submit handler. -/
def totalCostThb (inputTokens outputTokens : ℕ) : ℚ :=
  totalCostUsd inputTokens outputTokens * USD_TO_THB_RATE

/-- Number of decimal places used by toFixed when rendering a cost. -/
def costDecimalPlaces (costUsd : ℚ) : ℕ :=
  if costUsd < 0.01 then 6 else 4

/-- Whether the three-backtick fence marker occurs anywhere in the
  string; its absence is the precise meaning of an unfenced reply. -/
def containsTriple : List Char → Bool
  | [] => false
  | c :: rest => fenceChars.isPrefixOf (c :: rest) || containsTriple rest

/-! ## Helper lemmas -/

/-- Every try/catch whose handler returns a plain value resolves. -/
theorem runGeneration_total (oc : ModelOutcome) (pf inf : StoryResponse) :
    ∃ r, runGeneration oc pf inf = Except.ok r := by
  cases oc with
  | failure e => exact ⟨inf, rfl⟩
  | reply c =>
    cases c with
    | none => exact ⟨inf, rfl⟩
    | some content =>
      by_cases h : content = ""
      · subst h; exact ⟨inf, rfl⟩
      · cases hp : parseStoryContent content.toList with
        | none =>
          refine ⟨pf, ?_⟩
          simp only [runGeneration, if_neg h]
          rw [hp]
          rfl
        | some r =>
          refine ⟨r, ?_⟩
          simp only [runGeneration, if_neg h]
          rw [hp]
          rfl

/-! ## Claim theorems -/

/-- C1: every generation function of the caption service resolves to a
  CaptionResult for every model reply (including an absent or empty
  content field) and for every error thrown by the invocation itself; no
  exception propagates, and an invocation failure yields the fixed
  placeholder pair designated for that failure mode in each function. -/
theorem caption_service_total :
    (∀ fb oc, ∃ r, generateStoryFromImage fb oc = Except.ok r) ∧
    (∀ fb imgs oc, ∃ r, generateStoryFromMultipleImages fb imgs oc = Except.ok r) ∧
    (∀ fb read fps tr oc, ∃ r, generateStoryFromVideoFrames fb read fps tr oc = Except.ok r) ∧
    (∀ fb vd oc, ∃ r, generateStoryFromVideo fb vd oc = Except.ok r) ∧
    (∀ e, generateStoryFromImage false (ModelOutcome.failure e) =
      Except.ok imageInvocationFailStory) ∧
    (∀ e imgs, generateStoryFromMultipleImages false imgs (ModelOutcome.failure e) =
      Except.ok multiImageInvocationFailStory) ∧
    (∀ e read fps tr, generateStoryFromVideoFrames false read fps tr (ModelOutcome.failure e) =
      Except.ok videoFramesInvocationFailStory) ∧
    (∀ e vd, generateStoryFromVideo false vd (ModelOutcome.failure e) =
      Except.ok videoInvocationFailStory) := by
  refine ⟨?_, ?_, ?_, ?_, fun e => rfl, fun e imgs => rfl, fun e read fps tr => rfl,
    fun e vd => rfl⟩
  · intro fb oc
    cases fb
    · exact runGeneration_total oc _ _
    · exact ⟨imageFallbackStory, rfl⟩
  · intro fb imgs oc
    cases fb
    · exact runGeneration_total oc _ _
    · exact ⟨multiImageFallbackStory, rfl⟩
  · intro fb read fps tr oc
    cases fb
    · exact runGeneration_total oc _ _
    · exact ⟨videoFramesFallbackStory, rfl⟩
  · intro fb vd oc
    cases fb
    · exact runGeneration_total oc _ _
    · exact ⟨videoMetaFallbackStory vd, rfl⟩

/-- C2: a reply fenced as a json-tagged markdown code block around an
  object is recovered: the captured object contents are extracted, parsed
  and yield the caption with english x and thai absent. -/
theorem fenced_block_recovery :
    cleanContent (("```json\n\x7b\"english\":\"x\"\x7d\n```").toList) =
      ("\x7b\"english\":\"x\"\x7d").toList ∧
    parseStoryContent (("```json\n\x7b\"english\":\"x\"\x7d\n```").toList) =
      some { english := "x", thai := none } ∧
    generateStoryFromImage false
        (ModelOutcome.reply (some ("```json\n\x7b\"english\":\"x\"\x7d\n```"))) =
      Except.ok { english := "x", thai := none } :=
  ⟨rfl, rfl, rfl⟩

/-- C8: the displayed cost is inputTokens over a million times 0.40 plus
  outputTokens over a million times 1.60 dollars, converted to baht at
  35.0; a million input tokens alone cost exactly 0.40 and a million
  output tokens alone exactly 1.60; rendering uses six decimal places
  below one cent and four otherwise. -/
theorem cost_formula :
    totalCostUsd 1000000 0 = 0.40 ∧
    totalCostUsd 0 1000000 = 1.60 ∧
    (∀ i o : ℕ, totalCostUsd i o = (i : ℚ) / 1000000 * 0.40 + (o : ℚ) / 1000000 * 1.60) ∧
    (∀ i o : ℕ, totalCostThb i o = totalCostUsd i o * 35.0) ∧
    (∀ c : ℚ, (costDecimalPlaces c = 6 ↔ c < 0.01) ∧ (costDecimalPlaces c = 4 ↔ ¬ c < 0.01)) := by
  refine ⟨?_, ?_, fun i o => rfl, fun i o => rfl, fun c => ?_⟩
  · norm_num [totalCostUsd, INPUT_COST_USD_PER_MILLION, OUTPUT_COST_USD_PER_MILLION]
  · norm_num [totalCostUsd, INPUT_COST_USD_PER_MILLION, OUTPUT_COST_USD_PER_MILLION]
  · by_cases h : c < 0.01 <;> simp [costDecimalPlaces, h]

/-- C9 counterexample: removing by the file-name identifier deletes every
  entry with that name, so a distinct selected entry sharing only the
  name with the removed one does not remain, contradicting the claim; the
  two-entry selection used here is reachable through validated adds. -/
theorem remove_by_name_counterexample :
    removeFile "a.png" [{ name := "a.png", size := 1, type := "image/png" },
                        { name := "a.png", size := 2, type := "image/png" }] = [] ∧
    ({ name := "a.png", size := 2, type := "image/png" } : FileMeta) ≠
      { name := "a.png", size := 1, type := "image/png" } ∧
    ({ name := "a.png", size := 2, type := "image/png" } : FileMeta) ∉
      removeFile "a.png" [{ name := "a.png", size := 1, type := "image/png" },
                          { name := "a.png", size := 2, type := "image/png" }] ∧
    applyAdd (applyAdd [] [{ name := "a.png", size := 1, type := "image/png" }])
        [{ name := "a.png", size := 2, type := "image/png" }] =
      [{ name := "a.png", size := 1, type := "image/png" },
       { name := "a.png", size := 2, type := "image/png" }] := by
  refine ⟨rfl, by decide, by decide, by decide⟩

/-- C9 amended: Remove keeps exactly the entries whose name differs from
  the given identifier, in their original order; all entries bearing the
  identified name (not only one) are excluded. -/
theorem remove_by_name_amended (selected : List FileMeta) (fileName : String) :
    (removeFile fileName selected).Sublist selected ∧
    (∀ f, f ∈ removeFile fileName selected ↔ f ∈ selected ∧ f.name ≠ fileName) := by
  constructor
  · exact List.filter_sublist _
  · intro f
    simp [removeFile, List.mem_filter, bne_iff_ne]

/-- With more than ten frames the clamped index never exceeds the step
  index: the cap at n - 1 is slack. -/
theorem selectIndex_le (n i : Nat) (hn : 10 < n) (hi : i < 10) :
    i * (n / 10) ≤ n - 1 := by
  have h9 : i * (n / 10) ≤ 9 * (n / 10) :=
    Nat.mul_le_mul_right _ (by omega)
  have h10 : 9 * (n / 10) ≤ n - 1 := by omega
  omega

/-- The selected frame list always has length min n 10. -/
theorem selectFrames_length (framePaths : List String) :
    (selectFrames framePaths).length = min framePaths.length 10 := by
  unfold selectFrames
  by_cases h : framePaths.length ≤ 10
  · simp [h, Nat.min_eq_left h]
  · simp [h, Nat.min_eq_right (by omega : 10 ≤ framePaths.length)]

/-- C10: outside fallback mode the request for the video-frames strategy
  contains exactly min(n, 10) inline frame payloads; with n over ten the
  frames are taken at indices i times floor(n over 10), clamped at n - 1
  (the clamp being slack), and the chosen indices are strictly
  increasing, so selected frames keep their original order. -/
theorem frame_cap (framePaths : List String) (transcript : String)
    (read : String → String) (hne : framePaths ≠ []) :
    countImageParts (buildVideoFramesUserContent read framePaths transcript) =
      min framePaths.length 10 ∧
    (framePaths.length > 10 → ∀ i, i < 10 →
      (selectFrames framePaths).getD i ("") =
        framePaths.getD (i * (framePaths.length / 10)) ("") ∧
      min (i * (framePaths.length / 10)) (framePaths.length - 1) =
        i * (framePaths.length / 10)) ∧
    (framePaths.length > 10 → ∀ i j, i < j → j < 10 →
      i * (framePaths.length / 10) < j * (framePaths.length / 10)) := by
  refine ⟨?_, ?_, ?_⟩
  · have hcount : countImageParts (buildVideoFramesUserContent read framePaths transcript) =
        (selectFrames framePaths).length := by
      unfold buildVideoFramesUserContent countImageParts
      by_cases ht : transcript ≠ "" <;>
        simp [ht, List.filter_map, Function.comp_def]
    rw [hcount, selectFrames_length]
  · intro hn i hi
    have hmin : min (i * (framePaths.length / 10)) (framePaths.length - 1) =
        i * (framePaths.length / 10) :=
      Nat.min_eq_left (selectIndex_le _ _ hn hi)
    refine ⟨?_, hmin⟩
    unfold selectFrames
    rw [if_neg (by omega)]
    rw [List.getD, List.get?_map, List.get?_range hi]
    simp [hmin]
  · intro hn i j hij hj
    have hq : 0 < framePaths.length / 10 := by omega
    have h1 : (i + 1) * (framePaths.length / 10) ≤ j * (framePaths.length / 10) :=
      Nat.mul_le_mul_right _ (by omega)
    rw [Nat.succ_mul] at h1
    omega

/-- C10 witness: a concrete twelve-frame list exercises the theorem. -/
theorem frame_cap_witness :
    countImageParts (buildVideoFramesUserContent (fun p => p)
        ["f0", "f1", "f2", "f3", "f4", "f5", "f6", "f7", "f8", "f9", "f10", "f11"] ("")) =
      min (["f0", "f1", "f2", "f3", "f4", "f5", "f6", "f7", "f8", "f9", "f10", "f11"] :
        List String).length 10 :=
  (frame_cap _ "" (fun p => p) (by decide)).1

/-- A string that starts with the fence marker contains it. -/
theorem containsTriple_of_isPrefixOf (cs : List Char)
    (h : fenceChars.isPrefixOf cs = true) : containsTriple cs = true := by
  cases cs with
  | nil => exact absurd h (by decide)
  | cons c rest => simp [containsTriple, h]

/-- A string ending in the fence marker contains it. -/
theorem containsTriple_append_fence (u : List Char) :
    containsTriple (u ++ fenceChars) = true := by
  induction u with
  | nil => decide
  | cons c rest ih => simp [containsTriple, ih]

/-- Without any fence marker the fenced-block pattern has no match. -/
theorem findFencedJson_eq_none (cs : List Char) (h : containsTriple cs = false) :
    findFencedJson cs = none := by
  induction cs with
  | nil => rfl
  | cons c rest ih =>
    simp only [containsTriple, Bool.or_eq_false_iff] at h
    simp only [findFencedJson, matchFenceAt, h.1, Bool.false_eq_true, if_false]
    exact ih h.2

/-- Without any fence marker every stage of the normalization is the
  identity. -/
theorem cleanContent_id (cs : List Char) (h : containsTriple cs = false) :
    cleanContent cs = cs := by
  have hp3 : fenceChars.isPrefixOf cs = false := by
    cases hq : fenceChars.isPrefixOf cs
    · rfl
    · rw [containsTriple_of_isPrefixOf cs hq] at h; cases h
  have hp7 : ("```json".toList).isPrefixOf cs = false := by
    cases hq : ("```json".toList).isPrefixOf cs
    · rfl
    · have : fenceChars.isPrefixOf cs = true := by
        rw [List.isPrefixOf_iff_prefix] at hq ⊢
        exact List.IsPrefix.trans (by decide) hq
      rw [this] at hp3; cases hp3
  have hrev : fenceChars.isPrefixOf cs.reverse = false := by
    cases hq : fenceChars.isPrefixOf cs.reverse
    · rfl
    · rw [List.isPrefixOf_iff_prefix] at hq
      obtain ⟨t, ht⟩ := hq
      have hcs : cs = t.reverse ++ fenceChars := by
        have := congrArg List.reverse ht
        simpa [List.reverse_append, (by decide : fenceChars.reverse = fenceChars)] using
          this.symm
      rw [hcs, containsTriple_append_fence] at h; cases h
  unfold cleanContent stripLeadFenceJson stripLeadFence stripTrailFence
  rw [findFencedJson_eq_none cs h]
  simp only [hp7, hp3, hrev, Bool.false_eq_true, if_false]

/-- C3: on a reply that is already a bare JSON object of the required
  shape with no fencing, the extract-strip-parse pipeline changes
  nothing: the cleaned string is the reply itself and the parsed caption
  is returned exactly. -/
theorem clean_reply_identity (s : String) (j : Json) (r : StoryResponse)
    (hfence : containsTriple s.toList = false)
    (hparse : parseJson s.toList = some j)
    (hshape : storyResponseParse j = some r) :
    cleanContent s.toList = s.toList ∧
    parseStoryContent s.toList = some r ∧
    generateStoryFromImage false (ModelOutcome.reply (some s)) = Except.ok r := by
  have hc := cleanContent_id _ hfence
  have hps : parseStoryContent s.toList = some r := by
    unfold parseStoryContent
    rw [hc, hparse]
    exact hshape
  refine ⟨hc, hps, ?_⟩
  have hs : s ≠ "" := by
    intro he
    rw [he, show parseJson ("" : String).toList = none from rfl] at hparse
    exact Option.noConfusion hparse
  simp only [generateStoryFromImage, runGeneration, if_neg hs, Bool.false_eq_true, if_false]
  rw [hps]
  rfl

/-- C3 witness: the exact clean reply from the spec. -/
theorem clean_reply_identity_witness :
    cleanContent (("\x7b\"english\":\"x\",\"thai\":\"y\"\x7d").toList) =
      ("\x7b\"english\":\"x\",\"thai\":\"y\"\x7d").toList ∧
    parseStoryContent (("\x7b\"english\":\"x\",\"thai\":\"y\"\x7d").toList) =
      some { english := "x", thai := some "y" } ∧
    generateStoryFromImage false
        (ModelOutcome.reply (some ("\x7b\"english\":\"x\",\"thai\":\"y\"\x7d"))) =
      Except.ok { english := "x", thai := some "y" } :=
  clean_reply_identity _ (Json.obj [("english", Json.str ("x")), ("thai", Json.str ("y"))]) _
    rfl rfl rfl

/-- C4 counterexample: the cleaned reply with english a string but thai a
  number parses as a JSON object whose english field is a string, yet the
  schema rejects it and the parse-failure placeholder is substituted —
  so rejection is not equivalent to english being missing or non-string. -/
theorem shape_validation_counterexample :
    cleanContent (("\x7b\"english\":\"x\",\"thai\":5\x7d").toList) =
      ("\x7b\"english\":\"x\",\"thai\":5\x7d").toList ∧
    parseJson (cleanContent (("\x7b\"english\":\"x\",\"thai\":5\x7d").toList)) =
      some (Json.obj [("english", Json.str ("x")), ("thai", Json.num ("5"))]) ∧
    getJsonField [("english", Json.str ("x")), ("thai", Json.num ("5"))] ("english") =
      some (Json.str ("x")) ∧
    storyResponseParse (Json.obj [("english", Json.str ("x")), ("thai", Json.num ("5"))]) =
      none ∧
    generateStoryFromImage false
        (ModelOutcome.reply (some ("\x7b\"english\":\"x\",\"thai\":5\x7d"))) =
      Except.ok imageParseFailStory :=
  ⟨rfl, rfl, rfl, rfl, rfl⟩

/-- C4 amended: a cleaned reply parsing as a JSON object is treated as a
  parse failure if and only if its english field is missing or not a
  string, or its thai field is present and not a string; an object with a
  string english and thai absent or a string yields that pair; on
  rejection the fixed placeholder pair is returned and no exception is
  raised. -/
theorem shape_validation_amended (s : String) (fields : List (String × Json))
    (h : parseJson (cleanContent s.toList) = some (Json.obj fields)) :
    (storyResponseParse (Json.obj fields) = none ↔
      (∀ e, getJsonField fields ("english") ≠ some (Json.str e)) ∨
      (∃ v, getJsonField fields ("thai") = some v ∧ ∀ t, v ≠ Json.str t)) ∧
    (∀ e, getJsonField fields ("english") = some (Json.str e) →
      (getJsonField fields ("thai") = none →
        storyResponseParse (Json.obj fields) = some { english := e, thai := none }) ∧
      (∀ t, getJsonField fields ("thai") = some (Json.str t) →
        storyResponseParse (Json.obj fields) = some { english := e, thai := some t })) ∧
    generateStoryFromImage false (ModelOutcome.reply (some s)) =
      Except.ok ((storyResponseParse (Json.obj fields)).getD imageParseFailStory) := by
  refine ⟨?_, ?_, ?_⟩
  · cases he : getJsonField fields ("english") with
    | none =>
      simp only [storyResponseParse, he]
      exact ⟨fun _ => Or.inl (fun e hc => Option.noConfusion hc), fun _ => trivial⟩
    | some v =>
      cases v with
      | str e =>
        cases ht : getJsonField fields ("thai") with
        | none =>
          simp only [storyResponseParse, he, ht]
          constructor
          · intro hc; exact Option.noConfusion hc
          · rintro (hl | ⟨w, hw, _⟩)
            · exact absurd rfl (hl e)
            · exact Option.noConfusion hw
        | some w =>
          cases w with
          | str t =>
            simp only [storyResponseParse, he, ht]
            constructor
            · intro hc; exact Option.noConfusion hc
            · rintro (hl | ⟨v2, hv2, hns⟩)
              · exact absurd rfl (hl e)
              · exact absurd (Option.some.inj hv2).symm (hns t)
          | null =>
            simp only [storyResponseParse, he, ht]
            exact ⟨fun _ => Or.inr ⟨Json.null, rfl, fun t hc => Json.noConfusion hc⟩,
              fun _ => trivial⟩
          | bool b =>
            simp only [storyResponseParse, he, ht]
            exact ⟨fun _ => Or.inr ⟨Json.bool b, rfl, fun t hc => Json.noConfusion hc⟩,
              fun _ => trivial⟩
          | num r =>
            simp only [storyResponseParse, he, ht]
            exact ⟨fun _ => Or.inr ⟨Json.num r, rfl, fun t hc => Json.noConfusion hc⟩,
              fun _ => trivial⟩
          | arr l =>
            simp only [storyResponseParse, he, ht]
            exact ⟨fun _ => Or.inr ⟨Json.arr l, rfl, fun t hc => Json.noConfusion hc⟩,
              fun _ => trivial⟩
          | obj o =>
            simp only [storyResponseParse, he, ht]
            exact ⟨fun _ => Or.inr ⟨Json.obj o, rfl, fun t hc => Json.noConfusion hc⟩,
              fun _ => trivial⟩
      | null =>
        simp only [storyResponseParse, he]
        exact ⟨fun _ => Or.inl (fun e hc => Json.noConfusion (Option.some.inj hc)),
          fun _ => trivial⟩
      | bool b =>
        simp only [storyResponseParse, he]
        exact ⟨fun _ => Or.inl (fun e hc => Json.noConfusion (Option.some.inj hc)),
          fun _ => trivial⟩
      | num r =>
        simp only [storyResponseParse, he]
        exact ⟨fun _ => Or.inl (fun e hc => Json.noConfusion (Option.some.inj hc)),
          fun _ => trivial⟩
      | arr l =>
        simp only [storyResponseParse, he]
        exact ⟨fun _ => Or.inl (fun e hc => Json.noConfusion (Option.some.inj hc)),
          fun _ => trivial⟩
      | obj o =>
        simp only [storyResponseParse, he]
        exact ⟨fun _ => Or.inl (fun e hc => Json.noConfusion (Option.some.inj hc)),
          fun _ => trivial⟩
  · intro e he
    constructor
    · intro ht; simp [storyResponseParse, he, ht]
    · intro t ht; simp [storyResponseParse, he, ht]
  · have hs : s ≠ "" := by
      intro he
      rw [he, show cleanContent ("" : String).toList = [] from rfl,
        show parseJson [] = none from rfl] at h
      exact Option.noConfusion h
    have hps : parseStoryContent s.toList = storyResponseParse (Json.obj fields) := by
      unfold parseStoryContent
      rw [h]
    simp only [generateStoryFromImage, runGeneration, if_neg hs, Bool.false_eq_true, if_false]
    rw [hps]
    cases storyResponseParse (Json.obj fields) <;> rfl

/-- C4 witness: a clean reply with both fields strings satisfies the
  amended theorem's hypothesis and is accepted. -/
theorem shape_validation_amended_witness :
    generateStoryFromImage false
        (ModelOutcome.reply (some ("\x7b\"english\":\"a\",\"thai\":\"b\"\x7d"))) =
      Except.ok ((storyResponseParse
          (Json.obj [("english", Json.str ("a")), ("thai", Json.str ("b"))])).getD
        imageParseFailStory) :=
  (shape_validation_amended ("\x7b\"english\":\"a\",\"thai\":\"b\"\x7d")
    [("english", Json.str ("a")), ("thai", Json.str ("b"))] rfl).2.2

/-- Membership in the allowed video list is equality with the one type. -/
theorem contains_video_iff (t : String) :
    allowedVideoTypes.contains t = true ↔ t = "video/mp4" := by
  simp [allowedVideoTypes, List.contains]

/-- Membership in the allowed image list, spelled out. -/
theorem contains_image_iff (t : String) :
    allowedImageTypes.contains t = true ↔
      t = "image/jpeg" ∨ t = "image/jpg" ∨ t = "image/png" := by
  simp [allowedImageTypes, List.contains]

/-- Allowed image types are not allowed video types. -/
theorem image_type_not_video (t : String) (h : allowedImageTypes.contains t = true) :
    allowedVideoTypes.contains t = false := by
  rcases (contains_image_iff t).mp h with h1 | h1 | h1 <;> subst h1 <;> decide

/-- Allowed image types do not start with the video prefix. -/
theorem image_type_not_video_prefixed (t : String)
    (h : allowedImageTypes.contains t = true) :
    ("video/".toList).isPrefixOf t.toList = false := by
  rcases (contains_image_iff t).mp h with h1 | h1 | h1 <;> subst h1 <;> decide

/-- A list of allowed-image-typed files has no video. -/
theorem hasVideoIn_eq_false (l : List FileMeta)
    (h : ∀ f ∈ l, allowedImageTypes.contains f.type = true) : hasVideoIn l = false := by
  cases hb : hasVideoIn l
  · rfl
  · exfalso
    unfold hasVideoIn at hb
    obtain ⟨f, hf, hp⟩ := List.any_eq_true.mp hb
    rw [image_type_not_video _ (h f hf)] at hp
    cases hp

/-- Files surviving the duplicate-filtered fold come from the base or
  the batch. -/
theorem mem_foldl_addUnlessDuplicate (batch : List FileMeta) (init : List FileMeta)
    (f : FileMeta) (h : f ∈ batch.foldl addUnlessDuplicate init) : f ∈ init ∨ f ∈ batch := by
  induction batch generalizing init with
  | nil => exact Or.inl h
  | cons b bs ih =>
    rw [List.foldl_cons] at h
    rcases ih (addUnlessDuplicate init b) h with h1 | h1
    · unfold addUnlessDuplicate at h1
      by_cases hd : init.any (fun g => g.name == b.name && g.size == b.size && g.type == b.type)
      · rw [if_pos hd] at h1
        exact Or.inl h1
      · rw [if_neg hd] at h1
        rcases List.mem_append.mp h1 with h2 | h2
        · exact Or.inl h2
        · exact Or.inr (List.mem_cons.mpr (Or.inl (List.mem_singleton.mp h2)))
    · exact Or.inr (List.mem_cons.mpr (Or.inr h1))

/-- The post-clear base only keeps files of the prior selection. -/
theorem mem_updateBase (s b : List FileMeta) (f : FileMeta) (h : f ∈ updateBase s b) :
    f ∈ s := by
  unfold updateBase at h
  split at h
  · split at h
    · cases h
    · exact h
  · exact h

/-- Files in the merged selection come from the prior selection or the
  batch. -/
theorem mem_updateSelectedFiles (s b : List FileMeta) (f : FileMeta)
    (h : f ∈ updateSelectedFiles s b) : f ∈ s ∨ f ∈ b := by
  unfold updateSelectedFiles at h
  rcases mem_foldl_addUnlessDuplicate b _ f h with h1 | h1
  · exact Or.inl (mem_updateBase s b f h1)
  · exact Or.inr h1

/-- Adding a single allowed video replaces the selection with it. -/
theorem updateSelectedFiles_video (s : List FileMeta) (v : FileMeta)
    (hv : allowedVideoTypes.contains v.type = true) :
    updateSelectedFiles s [v] = [v] := by
  have ht : v.type = "video/mp4" := (contains_video_iff _).mp hv
  have hb : updateBase s [v] = [] := by
    show (if (("video/".toList).isPrefixOf v.type.toList) then [] else s) = []
    rw [ht, if_pos (by decide)]
  unfold updateSelectedFiles
  rw [hb]
  simp [addUnlessDuplicate]

/-- What an accepting run of validateFiles guarantees: the batch is a
  single allowed video, or an all-image batch with no video conflict in
  the current selection. -/
theorem validate_accept_cases (files selected : List FileMeta)
    (h : validateFiles files selected = Verdict.accept) :
    (∃ v, files = [v] ∧ allowedVideoTypes.contains v.type = true) ∨
    (hasVideoIn files = false ∧ (∀ f ∈ files, allowedImageTypes.contains f.type = true) ∧
      (selected.isEmpty = true ∨ hasVideoIn selected = false)) := by
  unfold validateFiles at h
  split at h
  · exact absurd h (by simp)
  next hne =>
    split at h
    · exact absurd h (by simp)
    next hc1 =>
      split at h
      · exact absurd h (by simp)
      next hc2 =>
        split at h
        · exact absurd h (by simp)
        next hc3 =>
          split at h
          next hv =>
            left
            have hlen1 : 1 ≤ files.length := by
              cases files with
              | nil => exact absurd rfl hne
              | cons a l => simp
            have hlen : files.length = 1 := by
              rcases Nat.lt_or_ge 1 files.length with hgt | hle
              · exact absurd (by simp [hv, hgt]) hc3
              · omega
            obtain ⟨v, rfl⟩ := List.length_eq_one.mp hlen
            refine ⟨v, rfl, ?_⟩
            simpa [hasVideoIn] using hv
          next hv =>
            right
            have hvf : hasVideoIn files = false := by
              revert hv; cases hasVideoIn files <;> simp
            refine ⟨hvf, ?_, ?_⟩
            · split at h
              · exact absurd h (by simp)
              next hinv =>
                intro f hf
                have hemp : (files.filter (fun f => !allowedImageTypes.contains f.type)).isEmpty
                    = true := by
                  revert hinv
                  cases (files.filter (fun f => !allowedImageTypes.contains f.type)).isEmpty <;>
                    simp
                have hnil : files.filter (fun f => !allowedImageTypes.contains f.type) = [] :=
                  List.isEmpty_iff.mp hemp
                have := List.filter_eq_nil_iff.mp hnil f hf
                revert this
                cases allowedImageTypes.contains f.type <;> simp
            · rcases Bool.eq_false_or_eq_true (hasVideoIn selected) with h2 | h2
              · rcases Bool.eq_false_or_eq_true selected.isEmpty with h3 | h3
                · exact Or.inl h3
                · exact absurd (by simp [h2, h3, hvf]) hc2
              · exact Or.inr h2

/-- C5: from the empty selection, every reachable SelectedFileSet is
  homogeneous: all entries are allowed images, or it is exactly one
  allowed video — never a mix, never more than one video. -/
theorem selection_homogeneity (s : List FileMeta) (h : Reachable s) :
    selectionHomogeneous s := by
  induction h with
  | empty => exact Or.inl (by simp)
  | add t batch hr ih =>
    unfold applyAdd
    cases hv : validateFiles batch t with
    | reject r => exact ih
    | accept =>
      rcases validate_accept_cases _ _ hv with ⟨v, rfl, hvt⟩ | ⟨hnv, hall, hsel⟩
      · rw [updateSelectedFiles_video _ v hvt]
        exact Or.inr ⟨v, rfl, hvt⟩
      · left
        have hs : ∀ f ∈ t, allowedImageTypes.contains f.type = true := by
          rcases ih with hims | ⟨w, rfl, hw⟩
          · exact hims
          · rcases hsel with hemp | hnvs
            · simp at hemp
            · rw [show hasVideoIn [w] = true by
                simp only [hasVideoIn, List.any_cons, List.any_nil, hw, Bool.or_false]] at hnvs
              cases hnvs
        intro f hf
        rcases mem_updateSelectedFiles _ _ f hf with h1 | h1
        · exact hs f h1
        · exact hall f h1
  | remove t fileName hr ih =>
    rcases ih with hims | ⟨v, rfl, hv⟩
    · exact Or.inl (fun f hf => hims f (List.mem_of_mem_filter hf))
    · by_cases hn : v.name = fileName
      · left
        intro f hf
        unfold removeFile at hf
        simp [hn] at hf
      · right
        refine ⟨v, ?_, hv⟩
        unfold removeFile
        simp [hn]
  | clear t hr ih => exact Or.inl (by simp)

/-- C5 witness: a validated image add from the empty selection. -/
theorem selection_homogeneity_witness :
    selectionHomogeneous (applyAdd [] [{ name := "a.png", size := 5, type := "image/png" }]) :=
  selection_homogeneity _ (Reachable.add [] _ Reachable.empty)

/-- C6: a candidate batch holding an allowed-video file together with at
  least one other file is rejected whatever the current selection, with
  one of the two cannot-mix reasons, and no file of the batch is added. -/
theorem mixed_batch_rejection (files selected : List FileMeta) (v : FileMeta)
    (hv : v ∈ files) (hvt : allowedVideoTypes.contains v.type = true)
    (hlen : 2 ≤ files.length) :
    (∃ msg, validateFiles files selected = Verdict.reject (some msg) ∧
      (msg = cannotMixMsg ∨ msg = singleVideoOrImagesMsg)) ∧
    applyAdd selected files = selected := by
  have hvf : hasVideoIn files = true := by
    unfold hasVideoIn
    exact List.any_eq_true.mpr ⟨v, hv, hvt⟩
  have hne : files.isEmpty = false := by
    cases files with
    | nil => simp at hlen
    | cons a l => rfl
  have hgt : decide (files.length > 1) = true := decide_eq_true (by omega)
  have hres : validateFiles files selected = Verdict.reject (some cannotMixMsg) ∨
      validateFiles files selected = Verdict.reject (some singleVideoOrImagesMsg) := by
    simp only [validateFiles, hne, Bool.false_eq_true, if_false, hvf, Bool.true_and,
      Bool.not_true, Bool.and_false, Bool.false_and, hgt, Bool.and_true]
    by_cases hc1 : (!selected.isEmpty && !hasVideoIn selected) = true
    · rw [if_pos hc1]
      exact Or.inl rfl
    · rw [if_neg hc1]
      exact Or.inr rfl
  constructor
  · rcases hres with h | h
    · exact ⟨cannotMixMsg, h, Or.inl rfl⟩
    · exact ⟨singleVideoOrImagesMsg, h, Or.inr rfl⟩
  · unfold applyAdd
    rcases hres with h | h <;> rw [h]

/-- C6 witness: one mp4 plus one image from the empty selection. -/
theorem mixed_batch_rejection_witness :
    (∃ msg, validateFiles
        [{ name := "v.mp4", size := 5, type := "video/mp4" },
         { name := "a.png", size := 5, type := "image/png" }] [] =
      Verdict.reject (some msg) ∧ (msg = cannotMixMsg ∨ msg = singleVideoOrImagesMsg)) ∧
    applyAdd [] [{ name := "v.mp4", size := 5, type := "video/mp4" },
                 { name := "a.png", size := 5, type := "image/png" }] = [] :=
  mixed_batch_rejection _ _ ({ name := "v.mp4", size := 5, type := "video/mp4" })
    (by decide) (by decide) (by decide)

/-- C7: a non-empty batch whose files all carry an allowed image type
  and are each at most ten mebibytes is accepted, for any current
  selection that holds no video (in particular the empty one, which rule
  three of the validator otherwise overrides). -/
theorem image_batch_acceptance (files selected : List FileMeta)
    (hne : files ≠ [])
    (htype : ∀ f ∈ files, allowedImageTypes.contains f.type = true)
    (hsize : ∀ f ∈ files, f.size ≤ maxImageSize)
    (hsel : hasVideoIn selected = false) :
    validateFiles files selected = Verdict.accept := by
  have hvf : hasVideoIn files = false := hasVideoIn_eq_false _ htype
  have hne2 : files.isEmpty = false := by
    cases files with
    | nil => exact absurd rfl hne
    | cons a l => rfl
  have hinv : files.filter (fun f => !allowedImageTypes.contains f.type) = [] := by
    apply List.filter_eq_nil_iff.mpr
    intro f hf
    rw [htype f hf]
    decide
  have hov : files.filter (fun f => decide (f.size > maxImageSize)) = [] := by
    apply List.filter_eq_nil_iff.mpr
    intro f hf
    have := hsize f hf
    simp only [decide_eq_true_eq]
    omega
  simp only [validateFiles, hne2, Bool.false_eq_true, if_false, hvf, hsel,
    Bool.false_and, Bool.and_false, Bool.not_false, Bool.true_and, hinv, hov,
    List.isEmpty_nil, Bool.not_true]

/-- C7 witness: two allowed images, one exactly at the ten-mebibyte cap,
  against the empty selection. -/
theorem image_batch_acceptance_witness :
    validateFiles [{ name := "a.png", size := 5242880, type := "image/png" },
                   { name := "b.jpg", size := 10485760, type := "image/jpeg" }] [] =
      Verdict.accept :=
  image_batch_acceptance _ _ (by decide) (by decide) (by decide) (by decide)
